import Mathlib

/-!
Verification of the business-finder front-end: the data model (types.ts),
the distance calculator, result ranker, favorites store, and search
orchestrator (App.tsx), and the deduplication step of the lookup service
(services/geminiService.ts), embedded shallowly with real numbers for the
JavaScript floating-point values.
-/

namespace BusinessFinder

open Real List

/-- The `Business` record from `types.ts`: `latitude`/`longitude` are optional. -/
structure Business where
  title : String
  uri : String
  placeId : String
  latitude : Option ℝ := none
  longitude : Option ℝ := none

/-- The `LocationCoords` record from `types.ts`. -/
structure LocationCoords where
  latitude : ℝ
  longitude : ℝ

/-- JavaScript `Math.atan2 y x`, embedded through `Real.arctan`:
quadrant-corrected arctangent, `0` at the origin. -/
noncomputable def atan2 (y x : ℝ) : ℝ :=
  if 0 < x then arctan (y / x)
  else if x < 0 then (if 0 ≤ y then arctan (y / x) + π else arctan (y / x) - π)
  else if 0 < y then π / 2
  else if y < 0 then -(π / 2)
  else 0

/-- Function `getDistance` from `App.tsx`: haversine great-circle distance in km with
Earth radius 6371. -/
noncomputable def getDistance (loc1 loc2 : LocationCoords) : ℝ :=
  let R : ℝ := 6371
  let dLat := (loc2.latitude - loc1.latitude) * (π / 180)
  let dLon := (loc2.longitude - loc1.longitude) * (π / 180)
  let a :=
    Real.sin (dLat / 2) * Real.sin (dLat / 2) +
    Real.cos (loc1.latitude * (π / 180)) *
    Real.cos (loc2.latitude * (π / 180)) *
    Real.sin (dLon / 2) *
    Real.sin (dLon / 2)
  let c := 2 * atan2 (Real.sqrt a) (Real.sqrt (1 - a))
  R * c

lemma hav_swap (la lb lo1 lo2 : ℝ) :
    Real.sin ((lb - la) * (π / 180) / 2) * Real.sin ((lb - la) * (π / 180) / 2) +
      Real.cos (la * (π / 180)) * Real.cos (lb * (π / 180)) *
        Real.sin ((lo2 - lo1) * (π / 180) / 2) * Real.sin ((lo2 - lo1) * (π / 180) / 2)
    = Real.sin ((la - lb) * (π / 180) / 2) * Real.sin ((la - lb) * (π / 180) / 2) +
      Real.cos (lb * (π / 180)) * Real.cos (la * (π / 180)) *
        Real.sin ((lo1 - lo2) * (π / 180) / 2) * Real.sin ((lo1 - lo2) * (π / 180) / 2) := by
  have h1 : (lb - la) * (π / 180) / 2 = -((la - lb) * (π / 180) / 2) := by ring
  have h2 : (lo2 - lo1) * (π / 180) / 2 = -((lo1 - lo2) * (π / 180) / 2) := by ring
  rw [h1, h2, Real.sin_neg, Real.sin_neg]
  ring

lemma getDistance_comm (A B : LocationCoords) : getDistance A B = getDistance B A := by
  simp only [getDistance]
  rw [hav_swap A.latitude B.latitude A.longitude B.longitude]

lemma getDistance_self (A : LocationCoords) : getDistance A A = 0 := by
  have h1 : atan2 0 1 = 0 := by
    unfold atan2
    rw [if_pos one_pos, zero_div, Real.arctan_zero]
  simp [getDistance, h1]

/-- An element of the `businessesWithDistance` result in `App.tsx`:
a business paired with its computed distance (`undefined` modelled as `none`). -/
structure RankedBusiness where
  biz : Business
  distance : Option ℝ

/-- The JavaScript sort key `distance ?? Infinity`: an undefined distance is
treated as infinite. -/
def distKey (d : Option ℝ) : WithTop ℝ :=
  match d with
  | none => ⊤
  | some x => (x : WithTop ℝ)

/-- The comparator of the `.sort` call in `App.tsx`, as the corresponding
total order on sort keys: `(a.distance ?? Infinity) - (b.distance ?? Infinity) <= 0`. -/
noncomputable def distLe (a b : RankedBusiness) : Bool :=
  decide (distKey a.distance ≤ distKey b.distance)

/-- The `.map` step of `businessesWithDistance`: attach a distance when both
coordinates are present and truthy (JavaScript `biz.latitude && biz.longitude`;
`0` is falsy), otherwise keep the business with an undefined distance. -/
noncomputable def rankBusiness (loc : LocationCoords) (biz : Business) : RankedBusiness :=
  match biz.latitude, biz.longitude with
  | some lat, some lng =>
    if lat ≠ 0 ∧ lng ≠ 0 then ⟨biz, some (getDistance loc ⟨lat, lng⟩)⟩
    else ⟨biz, none⟩
  | _, _ => ⟨biz, none⟩

/-- The `.filter` predicate of `businessesWithDistance`:
`distance === undefined || distance <= searchRadius`. -/
noncomputable def radiusFilter (searchRadius : ℝ) (r : RankedBusiness) : Bool :=
  match r.distance with
  | none => true
  | some d => decide (d ≤ searchRadius)

/-- The map-then-filter stage of `businessesWithDistance`, before sorting. -/
noncomputable def rankedFiltered (loc : LocationCoords) (searchRadius : ℝ)
    (businesses : List Business) : List RankedBusiness :=
  (businesses.map (rankBusiness loc)).filter (radiusFilter searchRadius)

/-- Memo `businessesWithDistance` from `App.tsx`: with no current location, pass all
businesses through with undefined distance; otherwise rank, filter by radius,
and stable-sort ascending by distance. -/
noncomputable def businessesWithDistance (location : Option LocationCoords)
    (searchRadius : ℝ) (businesses : List Business) : List RankedBusiness :=
  match location with
  | none => businesses.map (fun biz => ⟨biz, none⟩)
  | some loc => (rankedFiltered loc searchRadius businesses).mergeSort distLe

/-- The distance shown for a favorite in `renderFavorites` (`App.tsx` line 162):
`location && fav.latitude && fav.longitude ? getDistance(location, fav) : undefined`. -/
noncomputable def favoriteDistance (location : Option LocationCoords)
    (fav : Business) : Option ℝ :=
  match location, fav.latitude, fav.longitude with
  | some loc, some lat, some lng =>
    if lat ≠ 0 ∧ lng ≠ 0 then some (getDistance loc ⟨lat, lng⟩) else none
  | _, _, _ => none

lemma distLe_trans (a b c : RankedBusiness) :
    distLe a b → distLe b c → distLe a c := by
  simp only [distLe, decide_eq_true_eq]
  exact le_trans

lemma distLe_total (a b : RankedBusiness) : distLe a b || distLe b a := by
  simp only [distLe, Bool.or_eq_true, decide_eq_true_eq]
  exact le_total _ _

lemma rankBusiness_biz (loc : LocationCoords) (b : Business) :
    (rankBusiness loc b).biz = b := by
  rcases h1 : b.latitude with _ | lat <;> rcases h2 : b.longitude with _ | lng <;>
      simp only [rankBusiness, h1, h2]
  by_cases h : lat ≠ 0 ∧ lng ≠ 0
  · rw [if_pos h]
  · rw [if_neg h]

lemma rankBusiness_distance (loc : LocationCoords) (b : Business) :
    (rankBusiness loc b).distance = none ∨
      ∃ lat lng, b.latitude = some lat ∧ b.longitude = some lng ∧
        (rankBusiness loc b).distance = some (getDistance loc ⟨lat, lng⟩) := by
  rcases h1 : b.latitude with _ | lat <;> rcases h2 : b.longitude with _ | lng <;>
      simp only [rankBusiness, h1, h2]
  · exact Or.inl trivial
  · exact Or.inl trivial
  · exact Or.inl trivial
  · by_cases h : lat ≠ 0 ∧ lng ≠ 0
    · rw [if_pos h]
      exact Or.inr ⟨lat, lng, rfl, rfl, rfl⟩
    · rw [if_neg h]
      exact Or.inl rfl

lemma businessesWithDistance_sorted (location : Option LocationCoords)
    (searchRadius : ℝ) (businesses : List Business) :
    (businessesWithDistance location searchRadius businesses).Pairwise
      (fun a b => distKey a.distance ≤ distKey b.distance) := by
  unfold businessesWithDistance
  match location with
  | none =>
    simp only [List.pairwise_map]
    exact List.Pairwise.imp (fun _ => le_refl _)
      (List.pairwise_iff_forall_sublist.mpr (fun _ => trivial))
  | some loc =>
    have h := List.sorted_mergeSort distLe_trans distLe_total
      (rankedFiltered loc searchRadius businesses)
    exact h.imp (by simp only [distLe, decide_eq_true_eq]; exact fun h => h)

lemma businessesWithDistance_none_trailing (location : Option LocationCoords)
    (searchRadius : ℝ) (businesses : List Business) :
    ∀ a c : RankedBusiness,
      [a, c] <+ businessesWithDistance location searchRadius businesses →
      a.distance = none → c.distance = none := by
  intro a c hsub ha
  have h := List.pairwise_iff_forall_sublist.mp
    (businessesWithDistance_sorted location searchRadius businesses) hsub
  rw [ha] at h
  cases hc : c.distance with
  | none => rfl
  | some d =>
    rw [hc] at h
    exact absurd (top_le_iff.mp h) (by simp [distKey])

/-- Query `isFavorite` from `App.tsx`:
`favorites.some(fav => fav.placeId === business.placeId)`. -/
def isFavorite (favorites : List Business) (business : Business) : Bool :=
  favorites.any (fun fav => fav.placeId == business.placeId)

/-- Mutator `toggleFavorite` from `App.tsx`: remove every entry with the business's
`placeId` when present, otherwise append the business. -/
def toggleFavorite (favorites : List Business) (business : Business) : List Business :=
  if isFavorite favorites business then
    favorites.filter (fun fav => fav.placeId != business.placeId)
  else
    favorites ++ [business]

/-- What the favorites-loading effect in `App.tsx` can find in storage:
nothing, an unparsable value, or a stored list. -/
inductive StoredFavorites where
  | absent
  | corrupt
  | valid (favs : List Business)

/-- The favorites-loading effect in `App.tsx`: an absent or corrupt stored
value leaves the initial empty list; a parsed list is adopted as is. -/
def loadFavorites : StoredFavorites → List Business
  | .absent => []
  | .corrupt => []
  | .valid favs => favs

/-- The component state that `handleSearch` in `App.tsx` reads and writes. -/
structure AppState where
  error : Option String
  businesses : List Business
  isLoading : Bool

/-- JavaScript `String.prototype.trim`: strip leading and trailing whitespace. -/
def jsTrim (s : String) : String :=
  ⟨((s.data.dropWhile Char.isWhitespace).reverse.dropWhile Char.isWhitespace).reverse⟩

/-- Orchestrator `handleSearch` from `App.tsx` as a state transformer. The outcome of the
external `findNearbyBusinesses` call is passed in as an `Except`; the returned
`Bool` records whether that call was reached. -/
def handleSearch (searchTerm : String) (location : Option LocationCoords)
    (manualLocation : String) (prev : AppState)
    (lookupResult : Except String (List Business)) : AppState × Bool :=
  if jsTrim searchTerm == "" then
    ({ prev with error := some "Please enter a business category to search." }, false)
  else if location.isNone && jsTrim manualLocation == "" then
    ({ prev with error := some "Could not get your location. Please enable location services in your browser or enter a location manually." }, false)
  else
    match lookupResult with
    | .ok results =>
      let err : Option String :=
        if results.length == 0 then
          some ("No results found for \"" ++ searchTerm ++ "\". Try a different category or location.")
        else none
      ({ error := err, businesses := results, isLoading := false }, true)
    | .error msg =>
      ({ error := some msg, businesses := [], isLoading := false }, true)

lemma isFavorite_iff (favorites : List Business) (business : Business) :
    isFavorite favorites business = true ↔
      ∃ fav ∈ favorites, fav.placeId = business.placeId := by
  simp [isFavorite]

lemma mem_toggle_twice (F : List Business) (b : Business)
    (h : ∀ e ∈ F, e.placeId = b.placeId → e = b) (x : Business) :
    x ∈ toggleFavorite (toggleFavorite F b) b ↔ x ∈ F := by
  by_cases hfav : isFavorite F b = true
  · obtain ⟨e, heF, hepid⟩ := (isFavorite_iff F b).mp hfav
    have hbF : b ∈ F := h e heF hepid ▸ heF
    have h1 : toggleFavorite F b = F.filter (fun fav => fav.placeId != b.placeId) := by
      rw [toggleFavorite, if_pos hfav]
    have h2 : isFavorite (F.filter (fun fav => fav.placeId != b.placeId)) b = false := by
      rw [← Bool.not_eq_true]
      intro hc
      obtain ⟨e', he', hpid⟩ := (isFavorite_iff _ b).mp hc
      have := (List.mem_filter.mp he').2
      simp only [bne_iff_ne, ne_eq] at this
      exact this hpid
    have h3 : toggleFavorite (F.filter (fun fav => fav.placeId != b.placeId)) b
        = F.filter (fun fav => fav.placeId != b.placeId) ++ [b] := by
      rw [toggleFavorite, h2]
      simp
    rw [h1, h3]
    simp only [List.mem_append, List.mem_filter, List.mem_singleton, bne_iff_ne, ne_eq]
    constructor
    · rintro (⟨hxF, _⟩ | rfl)
      · exact hxF
      · exact hbF
    · intro hxF
      by_cases hx : x.placeId = b.placeId
      · exact Or.inr (h x hxF hx)
      · exact Or.inl ⟨hxF, hx⟩
  · have h1 : toggleFavorite F b = F ++ [b] := by
      rw [toggleFavorite, if_neg hfav]
    have h2 : isFavorite (F ++ [b]) b = true := by
      simp [isFavorite]
    have hnone : ∀ e ∈ F, e.placeId ≠ b.placeId := by
      intro e heF hc
      exact hfav ((isFavorite_iff F b).mpr ⟨e, heF, hc⟩)
    have h3 : toggleFavorite (F ++ [b]) b = F := by
      rw [toggleFavorite, h2]
      have hF : F.filter (fun fav => fav.placeId != b.placeId) = F :=
        List.filter_eq_self.mpr (fun e he => by simpa using hnone e he)
      simp [List.filter_append, hF]
    rw [h1, h3]

/-- One `set` step of a JavaScript `Map` built from a list of entries:
an existing key keeps its position and its value is overwritten;
a new key is appended. -/
def mapInsert (m : List (String × Business)) (k : String) (v : Business) :
    List (String × Business) :=
  if m.any (fun p => p.1 == k) then
    m.map (fun p => if p.1 == k then (k, v) else p)
  else
    m ++ [(k, v)]

/-- JavaScript `new Map(entries)`: entries inserted left to right, as key-value pairs in
key insertion order. -/
def jsMapFromEntries (entries : List (String × Business)) : List (String × Business) :=
  entries.foldl (fun m e => mapInsert m e.1 e.2) []

/-- The deduplication step of `findNearbyBusinesses` in `geminiService.ts`:
`Array.from(new Map(businesses.map(item => [item.placeId, item])).values())`. -/
def uniqueBusinesses (businesses : List Business) : List Business :=
  (jsMapFromEntries (businesses.map (fun item => (item.placeId, item)))).map Prod.snd

/-- Accumulate a key into a first-appearance key list. -/
def keyStep (acc : List String) (k : String) : List String :=
  if k ∈ acc then acc else acc ++ [k]

/-- The distinct keys of a list in order of first appearance. -/
def firstKeys (l : List String) : List String :=
  l.foldl keyStep []

lemma any_key_iff (m : List (String × Business)) (k : String) :
    (m.any (fun p => p.1 == k) = true) ↔ k ∈ m.map Prod.fst := by
  simp [List.any_eq_true, List.mem_map]

lemma mapInsert_keys (m : List (String × Business)) (k : String) (v : Business) :
    (mapInsert m k v).map Prod.fst = keyStep (m.map Prod.fst) k := by
  unfold mapInsert keyStep
  by_cases h : k ∈ m.map Prod.fst
  · rw [if_pos ((any_key_iff m k).mpr h), if_pos h, List.map_map]
    apply List.map_congr_left
    intro p _
    by_cases hp1 : p.1 = k
    · simp [Function.comp, hp1]
    · simp [Function.comp, hp1]
  · rw [if_neg (fun hc => h ((any_key_iff m k).mp hc)), if_neg h, List.map_append]
    rfl

lemma jsMapFromEntries_concat (es : List (String × Business)) (e : String × Business) :
    jsMapFromEntries (es ++ [e]) = mapInsert (jsMapFromEntries es) e.1 e.2 := by
  unfold jsMapFromEntries
  rw [List.foldl_append]
  rfl

lemma firstKeys_concat (l : List String) (k : String) :
    firstKeys (l ++ [k]) = keyStep (firstKeys l) k := by
  unfold firstKeys
  rw [List.foldl_append]
  rfl

lemma jsMap_keys (es : List (String × Business)) :
    (jsMapFromEntries es).map Prod.fst = firstKeys (es.map Prod.fst) := by
  induction es using List.reverseRecOn with
  | nil => rfl
  | append_singleton es e ih =>
    rw [jsMapFromEntries_concat, mapInsert_keys, ih, List.map_append,
      List.map_singleton, firstKeys_concat]

lemma keyStep_nodup (acc : List String) (k : String) (h : acc.Nodup) :
    (keyStep acc k).Nodup := by
  unfold keyStep
  by_cases hk : k ∈ acc
  · rwa [if_pos hk]
  · rw [if_neg hk]
    simp [List.nodup_append, h, hk]

lemma firstKeys_nodup (l : List String) : (firstKeys l).Nodup := by
  induction l using List.reverseRecOn with
  | nil => exact List.nodup_nil
  | append_singleton l k ih =>
    rw [firstKeys_concat]
    exact keyStep_nodup _ _ ih

lemma mem_mapInsert_key_eq {m : List (String × Business)} {k : String} {v : Business}
    {p : String × Business} (hp : p ∈ mapInsert m k v) (hk : p.1 = k) : p = (k, v) := by
  unfold mapInsert at hp
  by_cases h : m.any (fun q => q.1 == k) = true
  · rw [if_pos h] at hp
    obtain ⟨q, hq, hqe⟩ := List.mem_map.mp hp
    by_cases hq1 : q.1 = k
    · simp only [hq1, beq_self_eq_true, if_true] at hqe
      exact hqe.symm
    · simp only [beq_iff_eq, hq1, if_false] at hqe
      rw [← hqe] at hk
      exact absurd hk hq1
  · rw [if_neg h] at hp
    rcases List.mem_append.mp hp with hm | hs
    · exact absurd ((any_key_iff m k).mpr (List.mem_map.mpr ⟨p, hm, hk⟩)) h
    · exact List.mem_singleton.mp hs

lemma mem_mapInsert_key_ne {m : List (String × Business)} {k : String} {v : Business}
    {p : String × Business} (hp : p ∈ mapInsert m k v) (hk : p.1 ≠ k) : p ∈ m := by
  unfold mapInsert at hp
  by_cases h : m.any (fun q => q.1 == k) = true
  · rw [if_pos h] at hp
    obtain ⟨q, hq, hqe⟩ := List.mem_map.mp hp
    by_cases hq1 : q.1 = k
    · simp only [hq1, beq_self_eq_true, if_true] at hqe
      rw [← hqe] at hk
      exact absurd rfl hk
    · simp only [beq_iff_eq, hq1, if_false] at hqe
      rwa [← hqe]
  · rw [if_neg h] at hp
    rcases List.mem_append.mp hp with hm | hs
    · exact hm
    · rw [List.mem_singleton.mp hs] at hk
      exact absurd rfl hk

lemma jsMap_lastVal (es : List (String × Business)) :
    ∀ p ∈ jsMapFromEntries es, (es.filter (fun e => e.1 == p.1)).getLast? = some p := by
  induction es using List.reverseRecOn with
  | nil =>
    intro p hp
    simp [jsMapFromEntries] at hp
  | append_singleton es e ih =>
    intro p hp
    rw [jsMapFromEntries_concat] at hp
    by_cases hk : p.1 = e.1
    · have hpe : p = (e.1, e.2) := mem_mapInsert_key_eq hp hk
      rw [List.filter_append]
      have hfe : [e].filter (fun x => x.1 == p.1) = [e] := by
        simp [hk]
      rw [hfe, List.getLast?_concat, hpe]
    · have hpm : p ∈ jsMapFromEntries es := mem_mapInsert_key_ne hp hk
      rw [List.filter_append]
      have hfe : [e].filter (fun x => x.1 == p.1) = [] := by
        simp [Ne.symm hk]
      rw [hfe, List.append_nil]
      exact ih p hpm

lemma jsMap_key_eq_placeId (es : List (String × Business))
    (hes : ∀ e ∈ es, e.1 = e.2.placeId) :
    ∀ p ∈ jsMapFromEntries es, p.1 = p.2.placeId := by
  induction es using List.reverseRecOn with
  | nil =>
    intro p hp
    simp [jsMapFromEntries] at hp
  | append_singleton es e ih =>
    intro p hp
    rw [jsMapFromEntries_concat] at hp
    by_cases hk : p.1 = e.1
    · have hpe : p = (e.1, e.2) := mem_mapInsert_key_eq hp hk
      rw [hpe]
      exact hes e (by simp)
    · exact ih (fun x hx => hes x (by simp [hx])) p (mem_mapInsert_key_ne hp hk)

lemma rankBusiness_falsy (loc : LocationCoords) (b : Business)
    (h : b.latitude = some 0 ∨ b.longitude = some 0) :
    rankBusiness loc b = ⟨b, none⟩ := by
  rcases h1 : b.latitude with _ | lat <;> rcases h2 : b.longitude with _ | lng <;>
      simp only [rankBusiness, h1, h2]
  rcases h with h | h
  · rw [h1] at h
    injection h with h
    exact if_neg (fun hc => hc.1 h)
  · rw [h2] at h
    injection h with h
    exact if_neg (fun hc => hc.2 h)

lemma favoriteDistance_falsy (l : Option LocationCoords) (b : Business)
    (h : b.latitude = some 0 ∨ b.longitude = some 0) :
    favoriteDistance l b = none := by
  cases l with
  | none => rfl
  | some loc =>
    rcases h1 : b.latitude with _ | lat <;> rcases h2 : b.longitude with _ | lng <;>
        simp only [favoriteDistance, h1, h2]
    rcases h with h | h
    · rw [h1] at h
      injection h with h
      exact if_neg (fun hc => hc.1 h)
    · rw [h2] at h
      injection h with h
      exact if_neg (fun hc => hc.2 h)

/-! Concrete inputs used by the witnesses and counterexamples. -/

def loc0 : LocationCoords := ⟨1, 1⟩

def bizA : Business := ⟨"Cafe One", "uriA", "pid-a", some 1, some 1⟩

def bizB : Business := ⟨"Cafe Two", "uriB", "pid-b", some 1, some 1⟩

def bizZ : Business := ⟨"Zero Lat", "uriZ", "pid-z", some 0, some 1⟩

def exFirst : Business := ⟨"Alpha", "uri1", "abc", none, none⟩

def exSecond : Business := ⟨"Beta", "uri2", "abc", none, none⟩

def prev0 : AppState := ⟨none, [exFirst], false⟩

lemma rankBusiness_coord_one (b : Business) (h1 : b.latitude = some 1)
    (h2 : b.longitude = some 1) : rankBusiness loc0 b = ⟨b, some 0⟩ := by
  have h0 : getDistance loc0 ⟨1, 1⟩ = 0 := getDistance_self loc0
  simp only [rankBusiness, h1, h2]
  rw [if_pos ⟨one_ne_zero, one_ne_zero⟩, h0]

lemma radiusFilter_fifty_zero (b : Business) :
    radiusFilter 50 ⟨b, some 0⟩ = true := by
  simp only [radiusFilter, decide_eq_true_eq]
  norm_num

lemma eval_rankedFiltered_A :
    rankedFiltered loc0 50 [bizA] = [⟨bizA, some 0⟩] := by
  have hA : rankBusiness loc0 bizA = ⟨bizA, some 0⟩ := rankBusiness_coord_one bizA rfl rfl
  simp only [rankedFiltered, List.map_cons, List.map_nil, hA]
  rw [List.filter_cons_of_pos (radiusFilter_fifty_zero bizA)]
  rfl

lemma eval_rankedFiltered_AB :
    rankedFiltered loc0 50 [bizA, bizB] = [⟨bizA, some 0⟩, ⟨bizB, some 0⟩] := by
  have hA : rankBusiness loc0 bizA = ⟨bizA, some 0⟩ := rankBusiness_coord_one bizA rfl rfl
  have hB : rankBusiness loc0 bizB = ⟨bizB, some 0⟩ := rankBusiness_coord_one bizB rfl rfl
  simp only [rankedFiltered, List.map_cons, List.map_nil, hA, hB]
  rw [List.filter_cons_of_pos (radiusFilter_fifty_zero bizA),
    List.filter_cons_of_pos (radiusFilter_fifty_zero bizB)]
  rfl

lemma eval_bwd_A :
    businessesWithDistance (some loc0) 50 [bizA] = [⟨bizA, some 0⟩] := by
  simp only [businessesWithDistance]
  rw [eval_rankedFiltered_A, List.mergeSort_singleton]

lemma eval_bwd_AB :
    businessesWithDistance (some loc0) 50 [bizA, bizB]
      = [⟨bizA, some 0⟩, ⟨bizB, some 0⟩] := by
  simp only [businessesWithDistance]
  rw [eval_rankedFiltered_AB]
  apply List.mergeSort_of_sorted
  exact List.pairwise_pair.mpr (by simp [distLe])

lemma eval_bwd_Z :
    businessesWithDistance (some loc0) 50 [bizZ] = [⟨bizZ, none⟩] := by
  have hZ : rankBusiness loc0 bizZ = ⟨bizZ, none⟩ :=
    rankBusiness_falsy loc0 bizZ (Or.inl rfl)
  simp only [businessesWithDistance, rankedFiltered, List.map_cons, List.map_nil, hZ]
  rw [List.filter_cons_of_pos rfl, List.filter_nil, List.mergeSort_singleton]

/-! The claim theorems. -/

/-- Claim C1 (amended): `findNearbyBusinesses` deduplicates by `placeId` so
that the result has exactly one entry per unique `placeId`, in the order of
each id's first appearance, and for each id the retained entry carries the
data of the LAST occurrence of that `placeId` in the input list (JavaScript
`Map` construction overwrites the value of an existing key). -/
theorem C1_dedup_by_placeId (bs : List Business) :
    ((uniqueBusinesses bs).map Business.placeId).Nodup ∧
    (uniqueBusinesses bs).map Business.placeId = firstKeys (bs.map Business.placeId) ∧
    ∀ b ∈ uniqueBusinesses bs,
      (bs.filter (fun x => x.placeId == b.placeId)).getLast? = some b := by
  set es := bs.map (fun item => (item.placeId, item)) with hes
  have hkey : ∀ e ∈ es, e.1 = e.2.placeId := by
    intro e he
    obtain ⟨x, _, hxe⟩ := List.mem_map.mp he
    rw [← hxe]
  have hmapfst : (jsMapFromEntries es).map Prod.fst
      = (uniqueBusinesses bs).map Business.placeId := by
    rw [uniqueBusinesses, List.map_map]
    apply List.map_congr_left
    intro p hp
    exact jsMap_key_eq_placeId es hkey p hp
  have hesfst : es.map Prod.fst = bs.map Business.placeId := by
    rw [hes, List.map_map]
    rfl
  refine ⟨?_, ?_, ?_⟩
  · rw [← hmapfst, jsMap_keys]
    exact firstKeys_nodup _
  · rw [← hmapfst, jsMap_keys, hesfst]
  · intro b hb
    obtain ⟨p, hp, hpb⟩ := List.mem_map.mp hb
    have hk := jsMap_key_eq_placeId es hkey p hp
    have hlast := jsMap_lastVal es p hp
    have hpid : p.1 = b.placeId := by rw [hk, hpb]
    rw [hes, List.filter_map, List.getLast?_map, hpid] at hlast
    obtain ⟨x, hx1, hx2⟩ := Option.map_eq_some'.mp hlast
    have hxb : x = b := by
      rw [← hpb, ← hx2]
    rw [hxb] at hx1
    have hpred : ((fun e => e.1 == b.placeId) ∘ fun item : Business => (item.placeId, item))
        = (fun x : Business => x.placeId == b.placeId) := rfl
    rw [hpred] at hx1
    exact hx1

/-- Claim C1 counterexample: on two entries sharing `placeId = "abc"` with
titles "Alpha" then "Beta", the deduplicated list carries the SECOND title,
not the first-seen one as the claim states. -/
theorem C1_first_occurrence_cex :
    (uniqueBusinesses [exFirst, exSecond]).map Business.title = ["Beta"] ∧
      ("Beta" : String) ≠ "Alpha" := by
  constructor
  · rfl
  · decide

/-- Witness for C1 at a concrete input: the retained entry for `"abc"` is the
last occurrence of that id. -/
theorem C1_dedup_witness :
    ([exFirst, exSecond].filter (fun x => x.placeId == exSecond.placeId)).getLast?
      = some exSecond := by
  have he : uniqueBusinesses [exFirst, exSecond] = [exSecond] := rfl
  exact (C1_dedup_by_placeId [exFirst, exSecond]).2.2 exSecond
    (by rw [he]; exact List.mem_singleton.mpr rfl)

/-- Claim C4: the distance calculator is symmetric and vanishes on equal
points: `getDistance A B = getDistance B A` and `getDistance A A = 0`. -/
theorem C4_distance_symm_self (A B : LocationCoords) :
    getDistance A B = getDistance B A ∧ getDistance A A = 0 :=
  ⟨getDistance_comm A B, getDistance_self A⟩

/-- Claim C5 (amended): toggling twice with a business `b` restores the
favorites list as a set, PROVIDED every stored entry carrying `b.placeId` is
`b` itself (in particular when toggling the stored favorite, under the
no-duplicate invariant); without that proviso the round-trip replaces the
stored entry's data with `b`'s. -/
theorem C5_toggle_roundtrip (F : List Business) (b : Business)
    (h : ∀ e ∈ F, e.placeId = b.placeId → e = b) (x : Business) :
    x ∈ toggleFavorite (toggleFavorite F b) b ↔ x ∈ F :=
  mem_toggle_twice F b h x

/-- Claim C5 counterexample: starting from favorites `[exFirst]` and toggling
twice with `exSecond` (same `placeId`, different title) does NOT restore the
original favorites set: `exFirst` is no longer a member. -/
theorem C5_roundtrip_cex :
    exFirst ∈ [exFirst] ∧
      exFirst ∉ toggleFavorite (toggleFavorite [exFirst] exSecond) exSecond := by
  refine ⟨List.mem_singleton.mpr rfl, ?_⟩
  have he : toggleFavorite (toggleFavorite [exFirst] exSecond) exSecond = [exSecond] := rfl
  rw [he]
  intro hc
  exact absurd (congrArg Business.title (List.mem_singleton.mp hc)) (by decide)

/-- Witness for C5 at a concrete input: toggling `exFirst` twice on `[exFirst]`
leaves membership of `exFirst` unchanged. -/
theorem C5_toggle_witness :
    exFirst ∈ toggleFavorite (toggleFavorite [exFirst] exFirst) exFirst ↔
      exFirst ∈ [exFirst] :=
  C5_toggle_roundtrip [exFirst] exFirst
    (fun _ he _ => List.mem_singleton.mp he) exFirst

/-- Claim C2: every entry retained by the ranker either has an undefined
distance (and an undefined distance always passes the radius filter), or
carries the haversine distance from the current location to the business's
coordinates, which is at most the search radius. -/
theorem C2_radius_bound (loc : LocationCoords) (R : ℝ) (bs : List Business) :
    (∀ r ∈ businessesWithDistance (some loc) R bs,
      r.distance = none ∨
        ∃ lat lng, r.biz.latitude = some lat ∧ r.biz.longitude = some lng ∧
          r.distance = some (getDistance loc ⟨lat, lng⟩) ∧
          getDistance loc ⟨lat, lng⟩ ≤ R) ∧
    (∀ b : Business, radiusFilter R ⟨b, none⟩ = true) := by
  constructor
  · intro r hr
    simp only [businessesWithDistance] at hr
    have hr' : r ∈ rankedFiltered loc R bs := List.mem_mergeSort.mp hr
    obtain ⟨hmem, hfil⟩ := List.mem_filter.mp hr'
    obtain ⟨b, _, hbr⟩ := List.mem_map.mp hmem
    rcases rankBusiness_distance loc b with hd | ⟨lat, lng, h1, h2, hd⟩
    · left
      rw [← hbr]
      exact hd
    · right
      have hd' : r.distance = some (getDistance loc ⟨lat, lng⟩) := by
        rw [← hbr]
        exact hd
      refine ⟨lat, lng, ?_, ?_, hd', ?_⟩
      · rw [← hbr, rankBusiness_biz]
        exact h1
      · rw [← hbr, rankBusiness_biz]
        exact h2
      · unfold radiusFilter at hfil
        rw [hd'] at hfil
        exact of_decide_eq_true hfil
  · intro b
    rfl

/-- Witness for C2 at a concrete input: the single retained entry for a
business at the current location carries distance `0 ≤ 50`. -/
theorem C2_radius_witness :
    (⟨bizA, some 0⟩ : RankedBusiness).distance = none ∨
      ∃ lat lng, (⟨bizA, some 0⟩ : RankedBusiness).biz.latitude = some lat ∧
        (⟨bizA, some 0⟩ : RankedBusiness).biz.longitude = some lng ∧
        (⟨bizA, some 0⟩ : RankedBusiness).distance = some (getDistance loc0 ⟨lat, lng⟩) ∧
        getDistance loc0 ⟨lat, lng⟩ ≤ 50 :=
  (C2_radius_bound loc0 50 [bizA]).1 ⟨bizA, some 0⟩
    (by rw [eval_bwd_A]; exact List.mem_singleton.mpr rfl)

/-- Claim C3: the ranker's output is sorted non-decreasingly by distance with
undefined distances treated as infinite (hence trailing all defined ones),
ties keep the pre-sort relative order (stability of the sort), and with no
current location the list is passed through in input order. -/
theorem C3_sorted_stable (location : Option LocationCoords) (R : ℝ) (bs : List Business) :
    (businessesWithDistance location R bs).Pairwise
        (fun a c => distKey a.distance ≤ distKey c.distance) ∧
    (∀ a c : RankedBusiness, [a, c] <+ businessesWithDistance location R bs →
        a.distance = none → c.distance = none) ∧
    (∀ loc, location = some loc → ∀ a c : RankedBusiness,
        distKey a.distance = distKey c.distance →
        [a, c] <+ rankedFiltered loc R bs →
        [a, c] <+ businessesWithDistance location R bs) ∧
    (location = none →
        businessesWithDistance location R bs = bs.map (fun biz => ⟨biz, none⟩)) := by
  refine ⟨businessesWithDistance_sorted location R bs,
    businessesWithDistance_none_trailing location R bs, ?_, ?_⟩
  · rintro loc rfl a c hkey hsub
    simp only [businessesWithDistance]
    exact List.pair_sublist_mergeSort distLe_trans distLe_total
      (by simp [distLe, hkey]) hsub
  · rintro rfl
    rfl

/-- Witness for C3 at a concrete input: two equal-distance entries keep their
pre-sort order in the ranker's output. -/
theorem C3_stable_witness :
    [(⟨bizA, some 0⟩ : RankedBusiness), ⟨bizB, some 0⟩] <+
      businessesWithDistance (some loc0) 50 [bizA, bizB] := by
  refine (C3_sorted_stable (some loc0) 50 [bizA, bizB]).2.2.1 loc0 rfl _ _ rfl ?_
  rw [eval_rankedFiltered_AB]

/-- Claim C9: a business with latitude or longitude equal to `0` is treated by
the ranker as lacking coordinates (JavaScript falsiness of `0`): its entry has
undefined distance, it is retained regardless of the radius, undefined-distance
entries trail all defined ones, and the favorites view likewise shows no
distance for it. -/
theorem C9_zero_coordinate (location : Option LocationCoords) (R : ℝ)
    (bs : List Business) (b : Business)
    (h : b.latitude = some 0 ∨ b.longitude = some 0) :
    (∀ r ∈ businessesWithDistance location R bs, r.biz = b → r.distance = none) ∧
    (b ∈ bs → b ∈ (businessesWithDistance location R bs).map RankedBusiness.biz) ∧
    (∀ a c : RankedBusiness, [a, c] <+ businessesWithDistance location R bs →
        a.distance = none → c.distance = none) ∧
    (∀ l, favoriteDistance l b = none) := by
  refine ⟨?_, ?_, businessesWithDistance_none_trailing location R bs,
    fun l => favoriteDistance_falsy l b h⟩
  · intro r hr hrb
    cases location with
    | none =>
      simp only [businessesWithDistance] at hr
      obtain ⟨b', _, hb'⟩ := List.mem_map.mp hr
      rw [← hb']
    | some loc =>
      simp only [businessesWithDistance] at hr
      have hr' := List.mem_mergeSort.mp hr
      obtain ⟨hmem, _⟩ := List.mem_filter.mp hr'
      obtain ⟨b', _, hbr⟩ := List.mem_map.mp hmem
      have hbiz : b' = b := by
        rw [← hrb, ← hbr, rankBusiness_biz]
      rw [← hbr, hbiz, rankBusiness_falsy loc b h]
  · intro hb
    cases location with
    | none =>
      simp only [businessesWithDistance, List.map_map]
      exact List.mem_map.mpr ⟨b, hb, rfl⟩
    | some loc =>
      simp only [businessesWithDistance]
      refine List.mem_map.mpr ⟨⟨b, none⟩, ?_, rfl⟩
      rw [List.mem_mergeSort]
      refine List.mem_filter.mpr ⟨?_, rfl⟩
      exact List.mem_map.mpr ⟨b, hb, rankBusiness_falsy loc b h⟩

/-- Witness for C9 at a concrete input: a business with latitude `0` is
retained by the ranker and shown without a distance in the favorites view. -/
theorem C9_zero_witness :
    bizZ ∈ (businessesWithDistance (some loc0) 50 [bizZ]).map RankedBusiness.biz ∧
      favoriteDistance (some loc0) bizZ = none := by
  have h := C9_zero_coordinate (some loc0) 50 [bizZ] bizZ (Or.inl rfl)
  exact ⟨h.2.1 (List.mem_singleton.mpr rfl), h.2.2.2 (some loc0)⟩

/-- Claim C6: `handleSearch` validates in order — blank trimmed category
first (missing-category error), then absence of both coordinates and
non-blank manual location (missing-location error) — and in both cases
returns before the lookup is invoked (the `Bool` component is `false`),
leaving the rest of the state unchanged. -/
theorem C6_validation_order (searchTerm manualLocation : String)
    (location : Option LocationCoords) (prev : AppState)
    (lookupResult : Except String (List Business))
    (h : jsTrim searchTerm = "" ∨ (location = none ∧ jsTrim manualLocation = "")) :
    (handleSearch searchTerm location manualLocation prev lookupResult).2 = false ∧
    (handleSearch searchTerm location manualLocation prev lookupResult).1 =
      { prev with error := some (if jsTrim searchTerm = ""
          then "Please enter a business category to search."
          else "Could not get your location. Please enable location services in your browser or enter a location manually.") } := by
  by_cases h1 : jsTrim searchTerm = ""
  · unfold handleSearch
    rw [if_pos (beq_iff_eq.mpr h1), if_pos h1]
    exact ⟨rfl, rfl⟩
  · rcases h with h | ⟨hl, hm⟩
    · exact absurd h h1
    · unfold handleSearch
      rw [if_neg (fun hc => h1 (beq_iff_eq.mp hc))]
      rw [if_pos (by rw [hl, hm]; rfl)]
      rw [if_neg h1]
      exact ⟨rfl, rfl⟩

/-- Witness for C6 at a concrete input: blank category, no location, blank
manual location — the missing-category error is reported and no lookup runs. -/
theorem C6_validation_witness :
    (handleSearch "" none "" prev0 (.ok [])).2 = false ∧
    (handleSearch "" none "" prev0 (.ok [])).1 =
      { prev0 with error := some (if jsTrim "" = ""
          then "Please enter a business category to search."
          else "Could not get your location. Please enable location services in your browser or enter a location manually.") } :=
  C6_validation_order "" "" none prev0 (.ok []) (Or.inl rfl)

/-- Claim C7: the favorites-store operations preserve the invariant that no
two stored entries share a `placeId`: `toggleFavorite` preserves it, and
loading yields either an invariant-satisfying stored list or the empty list
(`isFavorite` is a pure query and does not change the stored list). -/
theorem C7_nodup_invariant :
    (∀ (F : List Business) (b : Business), (F.map Business.placeId).Nodup →
      ((toggleFavorite F b).map Business.placeId).Nodup) ∧
    (∀ s : StoredFavorites,
      (∀ favs, s = .valid favs → (favs.map Business.placeId).Nodup) →
      ((loadFavorites s).map Business.placeId).Nodup) := by
  constructor
  · intro F b hF
    by_cases hfav : isFavorite F b = true
    · rw [toggleFavorite, if_pos hfav]
      exact List.Nodup.sublist (List.Sublist.map _ (List.filter_sublist F)) hF
    · rw [toggleFavorite, if_neg hfav, List.map_append, List.map_singleton]
      refine List.Nodup.append hF (List.nodup_singleton _) ?_
      intro a haF haS
      rw [List.mem_singleton] at haS
      obtain ⟨e, heF, hepid⟩ := List.mem_map.mp haF
      exact hfav ((isFavorite_iff F b).mpr ⟨e, heF, by rw [hepid, haS]⟩)
  · intro s hs
    cases s with
    | absent => simp [loadFavorites]
    | corrupt => simp [loadFavorites]
    | valid favs => exact hs favs rfl

/-- Witness for C7 at concrete inputs: toggling on a one-element store keeps
the invariant, and loading a valid one-element store keeps it. -/
theorem C7_nodup_witness :
    ((toggleFavorite [exFirst] exSecond).map Business.placeId).Nodup ∧
      ((loadFavorites (.valid [exFirst])).map Business.placeId).Nodup := by
  constructor
  · exact C7_nodup_invariant.1 [exFirst] exSecond (by decide)
  · exact C7_nodup_invariant.2 (.valid [exFirst]) (fun favs hf => by cases hf; decide)

/-- Claim C8 (amended): when the lookup succeeds with an empty deduplicated
list, `handleSearch` reports the no-results condition THROUGH THE SAME error
state used for lookup failures — with the distinct message
`No results found for "<category>". Try a different category or location.` —
sets the business list empty, and the lookup was indeed invoked; the code has
no separate non-error no-results signal. -/
theorem C8_no_results_message (searchTerm manualLocation : String)
    (location : Option LocationCoords) (prev : AppState)
    (h1 : jsTrim searchTerm ≠ "")
    (h2 : ¬(location = none ∧ jsTrim manualLocation = "")) :
    (handleSearch searchTerm location manualLocation prev (.ok [])).1.error =
      some ("No results found for \"" ++ searchTerm ++ "\". Try a different category or location.") ∧
    (handleSearch searchTerm location manualLocation prev (.ok [])).1.businesses = [] ∧
    (handleSearch searchTerm location manualLocation prev (.ok [])).2 = true := by
  unfold handleSearch
  rw [if_neg (fun hc => h1 (beq_iff_eq.mp hc))]
  rw [if_neg (fun hc => h2 ⟨Option.isNone_iff_eq_none.mp (Bool.and_eq_true_iff.mp hc).1,
    beq_iff_eq.mp (Bool.and_eq_true_iff.mp hc).2⟩)]
  exact ⟨rfl, rfl, rfl⟩

/-- Claim C8 counterexample: at a concrete successful-but-empty lookup the
orchestrator sets the error state (the same signal as a failed lookup), so the
no-results condition is NOT reported as a non-error. -/
theorem C8_no_results_cex :
    (handleSearch "pizza" (some ⟨40, -74⟩) "" prev0 (.ok [])).1.error ≠ none := by
  intro hc
  have he : (handleSearch "pizza" (some ⟨40, -74⟩) "" prev0 (.ok [])).1.error =
      some "No results found for \"pizza\". Try a different category or location." := rfl
  rw [he] at hc
  exact Option.noConfusion hc

/-- Witness for C8 at a concrete input: non-blank category, location present,
empty lookup result — the no-results message lands in the error state. -/
theorem C8_no_results_witness :
    (handleSearch "pizza" (some loc0) "" prev0 (.ok [])).1.error =
      some ("No results found for \"" ++ "pizza" ++ "\". Try a different category or location.") ∧
    (handleSearch "pizza" (some loc0) "" prev0 (.ok [])).1.businesses = [] ∧
    (handleSearch "pizza" (some loc0) "" prev0 (.ok [])).2 = true :=
  C8_no_results_message "pizza" "" (some loc0) prev0 (by decide)
    (fun hc => Option.noConfusion hc.1)

/-- Claim C10: `handleSearch` clears the business list before invoking the
lookup, so when the lookup fails the resulting state shows an empty list (the
previous results are not restored) together with the failure message. -/
theorem C10_clear_on_failure (searchTerm manualLocation : String)
    (location : Option LocationCoords) (prev : AppState) (msg : String)
    (h1 : jsTrim searchTerm ≠ "")
    (h2 : ¬(location = none ∧ jsTrim manualLocation = "")) :
    (handleSearch searchTerm location manualLocation prev (.error msg)).1.businesses = [] ∧
    (handleSearch searchTerm location manualLocation prev (.error msg)).1.error = some msg := by
  unfold handleSearch
  rw [if_neg (fun hc => h1 (beq_iff_eq.mp hc))]
  rw [if_neg (fun hc => h2 ⟨Option.isNone_iff_eq_none.mp (Bool.and_eq_true_iff.mp hc).1,
    beq_iff_eq.mp (Bool.and_eq_true_iff.mp hc).2⟩)]
  exact ⟨rfl, rfl⟩

/-- Witness for C10 at a concrete input: the previous state holds one result,
the lookup fails, and the resulting state shows an empty list and the
failure message. -/
theorem C10_clear_witness :
    (handleSearch "pizza" none "NYC" prev0 (.error "Failed to find businesses: boom")).1.businesses
      = [] ∧
    (handleSearch "pizza" none "NYC" prev0 (.error "Failed to find businesses: boom")).1.error
      = some "Failed to find businesses: boom" :=
  C10_clear_on_failure "pizza" "NYC" none prev0 "Failed to find businesses: boom"
    (by decide) (fun hc => absurd hc.2 (by decide))

end BusinessFinder
